import Mathlib

/- Verification of the auditlog subsystem of the oathkeeper reverse proxy.
   The Go sources are shallowly embedded: pure functions become Lean
   functions, stateful objects become explicit state records, machine
   integers become Int or Nat, fallible operations return Except or
   Option.  Go maps keyed by strings are embedded as functions from
   String to Option values; external library calls (regexp, JSON
   unmarshalling, schema validation) are embedded as explicit
   parameters or as pre-parsed inputs, as noted at each definition. -/

namespace Auditlog

/-- Error values that circulate through the embedded code.  Go errors are
    opaque values compared by identity; we model the distinguished ones by
    constructors and the ad hoc ones by their message string. -/
inductive Err where
  | eof
  | nilReader
  | msg (s : String)
deriving DecidableEq, Repr

/-- JSON values, as produced by json.Unmarshal into an interface value.
    Numbers are embedded as Int (the claims never compute with them). -/
inductive Jval where
  | str (s : String)
  | num (n : Int)
  | bool (b : Bool)
  | null
  | arr (elems : List Jval)
  | obj (fields : List (String × Jval))

/-- Lookup of a key in a parsed JSON object, modelling the Go map access
    m[k] on a map produced by json.Unmarshal (keys are unique). -/
def lookupField (fields : List (String × Jval)) (k : String) : Option Jval :=
  match fields with
  | [] => none
  | (k2, v) :: rest => if k2 = k then some v else lookupField rest k

/-- The inner loop of filterBody in event_builder.go: starting from the
    whole parsed body, repeatedly cast the current value to a JSON object
    and look up the next path segment; any failure abandons the key. -/
def walkPath (v : Jval) (ks : List String) : Option Jval :=
  match ks with
  | [] => some v
  | k :: rest =>
    match v with
    | Jval.obj fields =>
      match lookupField fields k with
      | some v2 => walkPath v2 rest
      | none => none
    | _ => none

/-- Splitting a character list at every occurrence of the separator;
    the helper behind the embedding of strings.Split. -/
def splitChars (sep : Char) (cs : List Char) : List (List Char) :=
  match cs with
  | [] => [[]]
  | c :: rest =>
    let r := splitChars sep rest
    if c = sep then [] :: r
    else
      match r with
      | [] => [[c]]
      | g :: gs => (c :: g) :: gs

/-- Embedding of strings.Split with a one character separator, as
    filterBody uses it on the dot: the list of the groups between the
    separators, so that an empty string yields one empty group and a
    separator with nothing around it yields empty groups. -/
def stringsSplit (s : String) (sep : Char) : List String :=
  (splitChars sep s.data).map (fun g => String.mk g)

/-- Embedding of an empty Go map with string keys. -/
def mapEmpty {α : Type} : String → Option α :=
  fun _ => none

/-- Embedding of the Go map assignment result[k] = v. -/
def mapUpdate {α : Type} (m : String → Option α) (k : String) (v : α) :
    String → Option α :=
  fun k2 => if k2 = k then some v else m k2

/-- Embedding of filterBody from event_builder.go.  The Go function first
    runs ioutil.ReadAll and json.Unmarshal into map[string]interface on
    the raw body; that external prefix is embedded by taking the body as
    the parse result: some (Jval.obj fields) when the captured bytes are
    a JSON object, and any other value when the body is nil, unreadable,
    empty, or not a JSON object (unmarshal into a Go map fails then).
    For every whitelisted dotted key the value reached by walking the
    parsed object is stored under the full key. -/
def filterBody (body : Option Jval) (wl : List String) : String → Option Jval :=
  match body with
  | some (Jval.obj fields) =>
    wl.foldl
      (fun result key =>
        match walkPath (Jval.obj fields) (stringsSplit key (Char.ofNat 46)) with
        | some value => mapUpdate result key value
        | none => result)
      mapEmpty
  | _ => mapEmpty

/-- Embedding of filterHeader from the final event builder revision.  The
    header object is embedded through its Values view, the only way the
    Go code reads it: h maps a header name to the list of its values
    (empty when the header is absent).  For each whitelisted name with a
    nonempty value list, the full list is stored. -/
def filterHeader (h : String → List String) (wl : List String) :
    String → Option (List String) :=
  wl.foldl
    (fun result key =>
      if (h key).length ≠ 0 then mapUpdate result key (h key) else result)
    mapEmpty

/-- Filter from event_builder.go: whitelists for header and body capture
    plus the full response body flag. -/
structure Filter where
  RequestHeaderWhiteList : List String
  RequestBodyWhiteList : List String
  ResponseHeaderWhiteList : List String
  ResponseBodyWhiteList : List String
  TakeWholeResponseBody : Bool

/-- EventBuilder from the final event builder revision.  The compiled
    regular expression field r is embedded by its denotation: the
    function that MatchString applies to a candidate url. -/
structure EventBuilder where
  URLPattern : String
  Method : String
  ResponseCodes : List Int
  Filter : Filter
  Class : String
  DescriptionTemplate : String
  r : String → Bool

/-- Embedding of intInSlice from event_builder.go. -/
def intInSlice (a : Int) (list : List Int) : Bool :=
  match list with
  | [] => false
  | b :: rest => if b = a then true else intInSlice a rest

/-- Embedding of strings.EqualFold restricted to ASCII simple case
    folding: two strings are equal when folding every character to lower
    case makes them equal. -/
def equalFold (s t : String) : Bool :=
  s.data.map Char.toLower == t.data.map Char.toLower

/-- Embedding of the Match method of the final event builder revision:
    the response code set must be empty or contain the status code, the
    methods must be fold-equal, and the compiled pattern must match. -/
def EventBuilder.Match (b : EventBuilder) (url method : String)
    (statusCode : Int) : Bool :=
  (b.ResponseCodes.length == 0 || intInSlice statusCode b.ResponseCodes)
    && equalFold b.Method method && b.r url

/-- EventDetails from event.go (final revision): header and body excerpt
    maps, the optional full response body, and the metadata map. -/
structure EventDetails where
  RequestHeader : String → Option (List String)
  RequestBody : String → Option Jval
  ResponseHeader : String → Option (List String)
  ResponseBody : String → Option Jval
  FullResponseBody : Option Jval
  Meta : String → Option String

/-- Event from event.go (final revision). -/
structure Event where
  Class : String
  Description : String
  Details : EventDetails

/-- Embedding of NewEvent from event.go: all maps empty, no full body. -/
def NewEvent : Event :=
  { Class := ""
    Description := ""
    Details :=
      { RequestHeader := mapEmpty
        RequestBody := mapEmpty
        ResponseHeader := mapEmpty
        ResponseBody := mapEmpty
        FullResponseBody := none
        Meta := mapEmpty } }

/-- The captured request as the Build method consumes it: metadata
    fields, the Values view of the header, the optional authenticated
    session subject taken from the request context, and the captured
    body embedded as its JSON parse result (none when the bytes are not
    valid JSON). -/
structure RequestWithBytesBody where
  Method : String
  URL : String
  RemoteAddr : String
  SessionSubject : Option String
  Header : String → List String
  Body : Option Jval

/-- The captured response as the Build method consumes it. -/
structure ResponseWithBytesBody where
  StatusCode : Int
  Header : String → List String
  Body : Option Jval

/-- Embedding of SetRequestMeta from event.go. -/
def EventDetails.SetRequestMeta (d : EventDetails) (r : RequestWithBytesBody) :
    EventDetails :=
  let m1 := mapUpdate d.Meta "method" r.Method
  let m2 := mapUpdate m1 "url" r.URL
  let m3 := mapUpdate m2 "user_ip" r.RemoteAddr
  let m4 :=
    match r.SessionSubject with
    | some subject => mapUpdate m3 "user_id" subject
    | none => m3
  { d with Meta := m4 }

/-- Embedding of SetResponseMeta from event.go; strconv.Itoa is embedded
    as toString on Int. -/
def EventDetails.SetResponseMeta (d : EventDetails) (r : ResponseWithBytesBody) :
    EventDetails :=
  { d with Meta := mapUpdate d.Meta "status_code" (toString r.StatusCode) }

/-- Embedding of the Build method of the final event builder revision:
    fill request metadata and the filtered request maps when a request is
    present, fill response metadata, the filtered response maps and
    (when the filter requests it) the full response body parse when a
    response is present, then copy the class.  The error result is
    always nil. -/
def EventBuilder.Build (b : EventBuilder) (req : Option RequestWithBytesBody)
    (resp : Option ResponseWithBytesBody) : Event × Option Err :=
  let e0 := NewEvent
  let e1 :=
    match req with
    | none => e0
    | some r =>
      let d0 := e0.Details.SetRequestMeta r
      let d1 := { d0 with
        RequestHeader := filterHeader r.Header b.Filter.RequestHeaderWhiteList
        RequestBody := filterBody r.Body b.Filter.RequestBodyWhiteList }
      { e0 with Details := d1 }
  let e2 :=
    match resp with
    | none => e1
    | some r =>
      let d0 := e1.Details.SetResponseMeta r
      let d1 := { d0 with
        ResponseHeader := filterHeader r.Header b.Filter.ResponseHeaderWhiteList
        ResponseBody := filterBody r.Body b.Filter.ResponseBodyWhiteList
        FullResponseBody :=
          if b.Filter.TakeWholeResponseBody then r.Body
          else d0.FullResponseBody }
      { e1 with Details := d1 }
  let e3 := { e2 with Description := "", Class := b.Class }
  (e3, none)

/-- The inner single use stream wrapped by ReadCloserWithBuffer.  The Go
    io.ReadCloser is embedded by the queue of results its successive Read
    calls produce (each a byte chunk together with the returned error)
    and by the result of its Close call.  Bytes are embedded as Nat. -/
structure InnerStream where
  reads : List (List Nat × Option Err)
  closeErr : Option Err

/-- ReadCloserWithBuffer from read_closer_with_buffer.go: the inner
    stream, the capture buffer, the bufferReady flag, and the number of
    waiting observers (each Go channel in the waiting slice is one
    blocked GetBufBlocking caller). -/
structure ReadCloserWithBuffer where
  rc : InnerStream
  buffer : List Nat
  bufferReady : Bool
  waiting : Nat

/-- Embedding of NewReadCloserWithBuffer: a nil inner stream is rejected;
    otherwise the wrapper starts with an empty buffer, the ready flag
    down and nobody waiting. -/
def NewReadCloserWithBuffer (closer : Option InnerStream) :
    Except Err ReadCloserWithBuffer :=
  match closer with
  | none => Except.error Err.nilReader
  | some c =>
    Except.ok { rc := c, buffer := [], bufferReady := false, waiting := 0 }

/-- Embedding of the Read method: delegate to the inner stream and, when
    the returned error is nil, append the returned bytes to the buffer
    before handing them to the caller.  Reading an exhausted inner
    stream keeps returning no bytes and the end of file error. -/
def ReadCloserWithBuffer.Read (r : ReadCloserWithBuffer) :
    (List Nat × Option Err) × ReadCloserWithBuffer :=
  match r.rc.reads with
  | [] => (([], some Err.eof), r)
  | res :: rest =>
    let r2 := { r with rc := { r.rc with reads := rest } }
    match res.snd with
    | none => (res, { r2 with buffer := r2.buffer ++ res.fst })
    | some _ => (res, r2)

/-- Embedding of the Close method: close the inner stream, raise the
    bufferReady flag and release every waiting observer. -/
def ReadCloserWithBuffer.Close (r : ReadCloserWithBuffer) :
    Option Err × ReadCloserWithBuffer :=
  (r.rc.closeErr, { r with bufferReady := true, waiting := 0 })

/-- Embedding of the GetBufBlocking method.  When the bufferReady flag is
    up the buffer is returned at once; otherwise the caller registers a
    channel in the waiting slice and blocks, which the sequential
    embedding reports as no result. -/
def ReadCloserWithBuffer.GetBufBlocking (r : ReadCloserWithBuffer) :
    Option (List Nat) × ReadCloserWithBuffer :=
  if r.bufferReady then (some r.buffer, r)
  else (none, { r with waiting := r.waiting + 1 })

/-- One full draining pass over the wrapper, as ioutil.ReadAll performs
    it: call Read until an error is returned, concatenating the returned
    chunks.  The fuel bounds the number of calls. -/
def drainGo : Nat → ReadCloserWithBuffer → List Nat × ReadCloserWithBuffer
  | 0, r => ([], r)
  | Nat.succ fuel, r =>
    let step := r.Read
    match step.fst.snd with
    | some _ => ([], step.snd)
    | none =>
      let rest := drainGo fuel step.snd
      (step.fst.fst ++ rest.fst, rest.snd)

/-- Draining a wrapper to the end of its queued reads; one extra call
    observes the end of file. -/
def drain (r : ReadCloserWithBuffer) : List Nat × ReadCloserWithBuffer :=
  drainGo (r.rc.reads.length + 1) r

/-- A single use HTTP body stream as the decorator sees it.  The Go
    io.ReadCloser behind request and response bodies is embedded by the
    bytes it holds and the errors its ReadAll and Close calls return. -/
structure BodyStream where
  data : List Nat
  readErr : Option Err
  closeErr : Option Err
deriving DecidableEq, Repr

/-- An HTTP request as the decorator control flow consumes it (only the
    body matters to it). -/
structure HttpRequest where
  body : Option BodyStream
deriving DecidableEq, Repr

/-- An HTTP response as the decorator control flow consumes it. -/
structure HttpResponse where
  statusCode : Int
  body : Option BodyStream
deriving DecidableEq, Repr

/-- Embedding of teeReader from the decorator support file: fail on a nil
    reader, fail when reading fails, fail when closing fails, otherwise
    return the drained bytes and a fresh replay stream over them. -/
def teeReader (rc : Option BodyStream) : Except Err (List Nat × Option BodyStream) :=
  match rc with
  | none => Except.error Err.nilReader
  | some b =>
    match b.readErr with
    | some e => Except.error e
    | none =>
      match b.closeErr with
      | some e => Except.error e
      | none =>
        Except.ok (b.data, some { data := b.data, readErr := none, closeErr := none })

/-- Embedding of NewRequestWithBytesBody: a nil request is rejected; the
    nil reader failure of teeReader is tolerated (the request simply has
    no body); any other failure propagates.  The result is the request
    with its body replaced by the replay stream, paired with the raw
    captured bytes. -/
def NewRequestBytesCopy (r : Option HttpRequest) :
    Except Err (HttpRequest × List Nat) :=
  match r with
  | none => Except.error (Err.msg "nil request given")
  | some req =>
    match teeReader req.body with
    | Except.error e =>
      if e = Err.nilReader then Except.ok ({ req with body := none }, [])
      else Except.error e
    | Except.ok res => Except.ok ({ req with body := res.snd }, res.fst)

/-- Embedding of NewResponseWithBytesBody: a nil response is rejected and
    every teeReader failure propagates, a nil response body included. -/
def NewResponseBytesCopy (r : Option HttpResponse) :
    Except Err (HttpResponse × List Nat) :=
  match r with
  | none => Except.error (Err.msg "nil response given")
  | some resp =>
    match teeReader resp.body with
    | Except.error e => Except.error e
    | Except.ok res => Except.ok ({ resp with body := res.snd }, res.fst)

/-- Outcome of the underlying forwarding capability: the returned
    response and error pair. -/
structure RoundTripOutcome where
  resp : Option HttpResponse
  err : Option Err
deriving DecidableEq, Repr

/-- Arguments of one scheduled saveEvent background task: the request
    copy, the response copy, and the round trip error handed to it. -/
structure AuditArgs where
  reqCopy : HttpRequest × List Nat
  respCopy : HttpResponse × List Nat
  roundTripError : Option Err
deriving DecidableEq, Repr

/-- Result of one decorator RoundTrip call: the pair returned to the
    caller and the background audit task scheduled by it, if any. -/
structure DecoratorResult where
  resp : Option HttpResponse
  err : Option Err
  audit : Option AuditArgs
deriving DecidableEq, Repr

/-- Embedding of the RoundTrip method of ProxyAuditLogDecorator from
    proxy_decorator.go.  The underlying capability is a parameter.  A
    nil request fails at once with no audit task; a request copy failure
    fails with no audit task; then the underlying capability is invoked
    on the request whose body teeReader has replaced; a response copy
    failure fails with no audit task; otherwise the audit task is
    scheduled and the mutated response is returned with a nil error, the
    underlying error going only to the audit task. -/
def DecoratorRoundTrip (proxy : Option HttpRequest → RoundTripOutcome)
    (req : Option HttpRequest) : DecoratorResult :=
  match req with
  | none =>
    { resp := none, err := some (Err.msg "RoundTrip with nil request"), audit := none }
  | some request =>
    match NewRequestBytesCopy (some request) with
    | Except.error e => { resp := none, err := some e, audit := none }
    | Except.ok requestCopy =>
      let outcome := proxy (some requestCopy.fst)
      match NewResponseBytesCopy outcome.resp with
      | Except.error e => { resp := none, err := some e, audit := none }
      | Except.ok responseCopy =>
        { resp := some responseCopy.fst
          err := none
          audit := some
            { reqCopy := requestCopy
              respCopy := responseCopy
              roundTripError := outcome.err } }

/-- Observable emissions of the sink layer; the stdout sender logs the
    event with its service name field. -/
inductive Emission where
  | logMessage (serviceName : String) (e : Event)

/-- Emissions of the scheduled background task of one decorator call: an
    unscheduled task emits nothing, a scheduled one emits whatever the
    dispatch function makes of its arguments. -/
def auditEmissions (dispatch : AuditArgs → List Emission)
    (res : DecoratorResult) : List Emission :=
  match res.audit with
  | none => []
  | some args => dispatch args

/-- Embedding of the Send method of StdoutSender from sender.go: log the
    event under the Audit Log service name. -/
def StdoutSenderSend (e : Event) : List Emission :=
  [Emission.logMessage "Audit Log" e]

/-- Embedding of the Send method of KafkaSender from sender.go: the
    method body is empty, so nothing is emitted. -/
def KafkaSenderSend (_ : Event) : List Emission :=
  []

/-- The two sender implementations registered by the decorator factory. -/
inductive SenderKind where
  | stdout
  | kafka
deriving DecidableEq, Repr

/-- Dispatch of one event through one sender. -/
def SenderKind.Send : SenderKind → Event → List Emission
  | SenderKind.stdout, e => StdoutSenderSend e
  | SenderKind.kafka, e => KafkaSenderSend e

/-- ProxyAuditLogDecorator from proxy_decorator.go, the logger omitted
    (logging has no observable effect in the embedding). -/
structure ProxyAuditLogDecorator where
  proxy : Option HttpRequest → RoundTripOutcome
  builders : List EventBuilder
  senders : List SenderKind

/-- Embedding of NewProxyAuditLogDecoratorFromEventBuilders: the stdout
    sender is always registered and the kafka sender is appended exactly
    when the configuration enables it. -/
def NewProxyAuditLogDecoratorFromEventBuilders
    (proxy : Option HttpRequest → RoundTripOutcome) (kafkaEnabled : Bool)
    (bs : List EventBuilder) : ProxyAuditLogDecorator :=
  { proxy := proxy
    builders := bs
    senders := [SenderKind.stdout] ++ (if kafkaEnabled then [SenderKind.kafka] else []) }

/-- The rule configuration document after JSON decoding of the plain
    fields, before pattern compilation: one entry per rule object. -/
structure RawEventBuilder where
  urlPattern : String
  method : String
  responseCodes : List Int
  filter : Filter
  classTag : String
  descriptionTemplate : String

/-- Configuration load errors: a schema validation report or a pattern
    compilation failure naming the offending pattern. -/
inductive ConfigError where
  | schemaInvalid (descriptions : List String)
  | patternInvalid (pattern : String)

/-- Embedding of the UnmarshalJSON method of EventBuilder: decode the
    plain fields, then compile the url pattern; a compilation failure
    fails the whole decoding.  The regexp compiler is a parameter
    mapping a pattern to its matcher, or to none when the pattern is
    not compilable. -/
def unmarshalEventBuilder (compile : String → Option (String → Bool))
    (raw : RawEventBuilder) : Except ConfigError EventBuilder :=
  match compile raw.urlPattern with
  | none => Except.error (ConfigError.patternInvalid raw.urlPattern)
  | some matcher =>
    Except.ok
      { URLPattern := raw.urlPattern
        Method := raw.method
        ResponseCodes := raw.responseCodes
        Filter := raw.filter
        Class := raw.classTag
        DescriptionTemplate := raw.descriptionTemplate
        r := matcher }

/-- Embedding of deserializeJSONConfig: json.Unmarshal of the rule array
    decodes the entries in order, stopping at the first failing entry. -/
def deserializeJSONConfig (compile : String → Option (String → Bool))
    (raws : List RawEventBuilder) : Except ConfigError (List EventBuilder) :=
  match raws with
  | [] => Except.ok []
  | raw :: rest =>
    match unmarshalEventBuilder compile raw with
    | Except.error e => Except.error e
    | Except.ok b =>
      match deserializeJSONConfig compile rest with
      | Except.error e => Except.error e
      | Except.ok bs => Except.ok (b :: bs)

/-- Embedding of DeserializeEventBuildersFromBytes: schema validation
    runs first (its verdict, external to this code, is a parameter: the
    list of violation descriptions when the document is invalid), then
    the array is decoded. -/
def DeserializeEventBuildersFromBytes (compile : String → Option (String → Bool))
    (schemaVerdict : Option (List String)) (raws : List RawEventBuilder) :
    Except ConfigError (List EventBuilder) :=
  match schemaVerdict with
  | some descriptions => Except.error (ConfigError.schemaInvalid descriptions)
  | none => deserializeJSONConfig compile raws

/-- True exactly when an Except value is a failure. -/
def exceptFailed {ε α : Type} (x : Except ε α) : Bool :=
  match x with
  | Except.error _ => true
  | Except.ok _ => false

/-- The underlying capability of the claim C1 counterexample: it
    produces a readable response together with an upstream failure
    error, the pair an http transport may legally return. -/
def proxyCex : Option HttpRequest → RoundTripOutcome :=
  fun _ =>
    { resp := some
        { statusCode := 502
          body := some { data := [1], readErr := none, closeErr := none } }
      err := some (Err.msg "upstream failure") }

/-- The request of the claim C1 counterexample. -/
def requestCex : HttpRequest :=
  { body := some { data := [], readErr := none, closeErr := none } }

/-- A request whose body read fails, exercising the request copy failure
    branch of the claim C1 witness. -/
def requestReadErrCex : HttpRequest :=
  { body := some { data := [], readErr := some (Err.msg "read failure"), closeErr := none } }

/-- An underlying capability that returns no response at all, exercising
    the response copy failure branch of the claim C1 witness. -/
def proxyNoRespCex : Option HttpRequest → RoundTripOutcome :=
  fun _ => { resp := none, err := some (Err.msg "upstream down") }

/-- A concrete regexp compiler for the claim C7 witness: it rejects the
    lone opening bracket pattern and compiles every other pattern to a
    matcher accepting everything. -/
def compileCex : String → Option (String → Bool) :=
  fun s => if s = "(" then none else some (fun _ => true)

/-- A well formed rule of the claim C7 witness. -/
def rawOkCex : RawEventBuilder :=
  { urlPattern := "^/api$"
    method := "GET"
    responseCodes := [200]
    filter :=
      { RequestHeaderWhiteList := []
        RequestBodyWhiteList := []
        ResponseHeaderWhiteList := []
        ResponseBodyWhiteList := []
        TakeWholeResponseBody := false }
    classTag := "c"
    descriptionTemplate := "" }

/-- A rule with an uncompilable pattern for the claim C7 witness. -/
def rawBadCex : RawEventBuilder :=
  { rawOkCex with urlPattern := "(" }

theorem intInSlice_eq_true_iff (a : Int) (l : List Int) :
    intInSlice a l = true ↔ a ∈ l := by
  induction l with
  | nil => simp [intInSlice]
  | cons b rest ih =>
    by_cases hb : b = a
    · subst hb
      simp [intInSlice]
    · simp [intInSlice, hb, ih, List.mem_cons]
      intro hab
      exact absurd hab.symm hb

theorem equalFold_eq_true_iff (s t : String) :
    equalFold s t = true ↔ s.data.map Char.toLower = t.data.map Char.toLower := by
  simp [equalFold]

/-- Claim C3: the Match method of a rule returns true exactly when the
    rule method and the request method are equal up to case folding, the
    compiled pattern accepts the url, and the status code lies in the
    response code set of the rule or that set is empty. -/
theorem eventBuilder_match_iff (b : EventBuilder) (url method : String)
    (statusCode : Int) :
    b.Match url method statusCode = true ↔
      (b.Method.data.map Char.toLower = method.data.map Char.toLower ∧
        b.r url = true ∧
        (b.ResponseCodes = [] ∨ statusCode ∈ b.ResponseCodes)) := by
  simp only [EventBuilder.Match, Bool.and_eq_true, Bool.or_eq_true,
    equalFold_eq_true_iff, intInSlice_eq_true_iff, beq_iff_eq,
    List.length_eq_zero]
  tauto

theorem filterHeader_go (h : String → List String) (wl : List String) :
    ∀ (m : String → Option (List String)) (key : String),
      List.foldl
          (fun result key =>
            if (h key).length ≠ 0 then mapUpdate result key (h key) else result)
          m wl key =
        if key ∈ wl ∧ h key ≠ [] then some (h key) else m key := by
  induction wl with
  | nil =>
    intro m key
    simp
  | cons w rest ih =>
    intro m key
    rw [List.foldl_cons, ih]
    by_cases hmem : key ∈ rest ∧ h key ≠ []
    · rw [if_pos hmem, if_pos ⟨List.mem_cons_of_mem w hmem.1, hmem.2⟩]
    · rw [if_neg hmem]
      by_cases hwk : w = key
      · subst hwk
        by_cases hv : h w = []
        · have hlen : ¬ (h w).length ≠ 0 := by simp [hv]
          rw [if_neg hlen, if_neg]
          intro hc
          exact hc.2 hv
        · have hlen : (h w).length ≠ 0 := by
            simp [List.length_eq_zero]
            exact hv
          rw [if_pos hlen, if_pos ⟨List.mem_cons_self w rest, hv⟩]
          simp [mapUpdate]
      · have hnc : ¬ (key ∈ w :: rest ∧ h key ≠ []) := by
          intro hc
          rcases List.mem_cons.mp hc.1 with hkw | hkr
          · exact hwk hkw.symm
          · exact hmem ⟨hkr, hc.2⟩
        rw [if_neg hnc]
        by_cases hlen : (h w).length ≠ 0
        · rw [if_pos hlen]
          simp [mapUpdate]
          intro hkw
          exact absurd hkw.symm hwk
        · rw [if_neg hlen]

/-- Claim C5: header filtering keeps, for each whitelisted header name
    that is present in the headers, its full value list under that name,
    and produces no entry for whitelisted names that are absent (the
    Values view of an absent name is the empty list) nor for names
    outside the whitelist. -/
theorem filterHeader_spec (h : String → List String) (wl : List String)
    (key : String) :
    filterHeader h wl key =
      if key ∈ wl ∧ h key ≠ [] then some (h key) else none := by
  rw [filterHeader, filterHeader_go]
  rfl

theorem filterBody_go (fields : List (String × Jval)) (wl : List String) :
    ∀ (m : String → Option Jval) (key : String),
      List.foldl
          (fun result key =>
            match walkPath (Jval.obj fields) (stringsSplit key (Char.ofNat 46)) with
            | some value => mapUpdate result key value
            | none => result)
          m wl key =
        match walkPath (Jval.obj fields) (stringsSplit key (Char.ofNat 46)) with
        | some value => if key ∈ wl then some value else m key
        | none => m key := by
  induction wl with
  | nil =>
    intro m key
    cases hk : walkPath (Jval.obj fields) (stringsSplit key (Char.ofNat 46)) <;> simp
  | cons w rest ih =>
    intro m key
    rw [List.foldl_cons, ih]
    by_cases hwk : w = key
    · subst hwk
      cases hk : walkPath (Jval.obj fields) (stringsSplit w (Char.ofNat 46)) with
      | none => simp [hk]
      | some value => simp [hk, mapUpdate]
    · cases hk : walkPath (Jval.obj fields) (stringsSplit key (Char.ofNat 46)) with
      | none =>
        cases hw : walkPath (Jval.obj fields) (stringsSplit w (Char.ofNat 46)) with
        | none => simp [hk, hw]
        | some valueW => simp [hk, hw, mapUpdate, Ne.symm hwk]
      | some value =>
        by_cases hmem : key ∈ rest
        · simp [hk, hmem, List.mem_cons]
        · cases hw : walkPath (Jval.obj fields) (stringsSplit w (Char.ofNat 46)) with
          | none => simp [hk, hw, hmem, List.mem_cons, Ne.symm hwk]
          | some valueW => simp [hk, hw, hmem, mapUpdate, List.mem_cons, Ne.symm hwk]

/-- Claim C4: body field extraction stores, for each whitelisted dotted
    path, exactly the value the path walk reaches in the parsed JSON
    object; paths that do not resolve contribute no entry, keys outside
    the whitelist contribute no entry, a body that is not a JSON object
    yields the empty map, and the Build method never returns an error. -/
theorem filterBody_build_spec :
    (∀ (fields : List (String × Jval)) (wl : List String) (key : String)
        (value : Jval),
        key ∈ wl →
        walkPath (Jval.obj fields) (stringsSplit key (Char.ofNat 46)) = some value →
        filterBody (some (Jval.obj fields)) wl key = some value) ∧
    (∀ (fields : List (String × Jval)) (wl : List String) (key : String),
        walkPath (Jval.obj fields) (stringsSplit key (Char.ofNat 46)) = none →
        filterBody (some (Jval.obj fields)) wl key = none) ∧
    (∀ (fields : List (String × Jval)) (wl : List String) (key : String),
        key ∉ wl → filterBody (some (Jval.obj fields)) wl key = none) ∧
    (∀ (body : Option Jval) (wl : List String) (key : String),
        (∀ fields, body ≠ some (Jval.obj fields)) →
        filterBody body wl key = none) ∧
    (∀ (b : EventBuilder) (req : Option RequestWithBytesBody)
        (resp : Option ResponseWithBytesBody),
        (b.Build req resp).snd = none) := by
  refine ⟨?_, ?_, ?_, ?_, ?_⟩
  · intro fields wl key value hmem hwalk
    rw [filterBody, filterBody_go]
    simp [hwalk, hmem]
  · intro fields wl key hwalk
    rw [filterBody, filterBody_go]
    simp [hwalk, mapEmpty]
  · intro fields wl key hmem
    rw [filterBody, filterBody_go]
    cases hk : walkPath (Jval.obj fields) (stringsSplit key (Char.ofNat 46)) with
    | none => simp [hk, mapEmpty]
    | some value => simp [hk, hmem, mapEmpty]
  · intro body wl key hbody
    match body with
    | none => rfl
    | some (Jval.str s) => rfl
    | some (Jval.num n) => rfl
    | some (Jval.bool b) => rfl
    | some Jval.null => rfl
    | some (Jval.arr elems) => rfl
    | some (Jval.obj fields) => exact absurd rfl (hbody fields)
  · intro b req resp
    cases req <;> cases resp <;> rfl

/-- Claim C4 witness: the test vector of the specification, a body with
    a nested object and a flat field, a resolving nested path, a missing
    path, a key outside the whitelist, and a body that is a JSON array. -/
theorem filterBody_build_spec_witness :
    filterBody
        (some (Jval.obj
          [("a", Jval.obj [("b", Jval.obj [("c", Jval.str "123")])]),
           ("f", Jval.str "42")]))
        ["a.b.c", "a.b.missing", "f"] "a.b.c" = some (Jval.str "123") ∧
    filterBody
        (some (Jval.obj
          [("a", Jval.obj [("b", Jval.obj [("c", Jval.str "123")])]),
           ("f", Jval.str "42")]))
        ["a.b.c", "a.b.missing", "f"] "f" = some (Jval.str "42") ∧
    filterBody
        (some (Jval.obj
          [("a", Jval.obj [("b", Jval.obj [("c", Jval.str "123")])]),
           ("f", Jval.str "42")]))
        ["a.b.c", "a.b.missing", "f"] "a.b.missing" = none ∧
    filterBody
        (some (Jval.obj
          [("a", Jval.obj [("b", Jval.obj [("c", Jval.str "123")])]),
           ("f", Jval.str "42")]))
        ["a.b.c", "a.b.missing", "f"] "other" = none ∧
    filterBody (some (Jval.arr [])) ["a"] "a" = none :=
  ⟨filterBody_build_spec.1 _ _ _ _ (by decide) rfl,
   filterBody_build_spec.1 _ _ _ _ (by decide) rfl,
   filterBody_build_spec.2.1 _ _ _ rfl,
   filterBody_build_spec.2.2.1 _ _ _ (by decide),
   filterBody_build_spec.2.2.2.1 _ _ _ (fun fields h => by simp at h)⟩

theorem drainGo_ok (cs : List (List Nat)) :
    ∀ (fuel : Nat) (r : ReadCloserWithBuffer),
      r.rc.reads = cs.map (fun c => (c, (none : Option Err))) →
      cs.length < fuel →
      drainGo fuel r =
        (cs.flatten,
          { r with rc := { r.rc with reads := [] }, buffer := r.buffer ++ cs.flatten }) := by
  induction cs with
  | nil =>
    intro fuel r hreads hfuel
    match fuel, hfuel with
    | Nat.succ f, _ =>
      cases r with
      | mk rc buffer ready waiting =>
        cases rc with
        | mk reads closeErr =>
          simp at hreads
          subst hreads
          simp [drainGo, ReadCloserWithBuffer.Read]
  | cons c rest ih =>
    intro fuel r hreads hfuel
    match fuel, hfuel with
    | Nat.succ f, hfuel =>
      cases r with
      | mk rc buffer ready waiting =>
        cases rc with
        | mk reads closeErr =>
          simp at hreads
          subst hreads
          have hf : rest.length < f := by
            simpa using Nat.lt_of_succ_lt_succ hfuel
          rw [drainGo]
          simp only [ReadCloserWithBuffer.Read]
          rw [ih f _ rfl hf]
          simp [List.append_assoc]

/-- Claim C2: wrapping a stream that yields a byte sequence, fully
    draining the wrapper through Read until end of data, then calling
    Close makes GetBufBlocking return exactly that sequence and leave
    the state untouched, so every subsequent call returns it again; and
    every successful Read appends exactly the bytes it returns to the
    buffer before handing them to the caller. -/
theorem capture_drain_close_getBuf :
    (∀ (cs : List (List Nat)) (closeErr : Option Err) (w : ReadCloserWithBuffer),
        NewReadCloserWithBuffer
            (some { reads := cs.map (fun c => (c, none)), closeErr := closeErr }) =
          Except.ok w →
        (drain w).fst = cs.flatten ∧
        (((drain w).snd.Close).snd.GetBufBlocking).fst = some cs.flatten ∧
        (((drain w).snd.Close).snd.GetBufBlocking).snd = ((drain w).snd.Close).snd) ∧
    (∀ (r r2 : ReadCloserWithBuffer) (bs : List Nat) (e : Option Err),
        r.Read = ((bs, e), r2) → e = none → r2.buffer = r.buffer ++ bs) := by
  constructor
  · intro cs closeErr w hw
    simp only [NewReadCloserWithBuffer, Except.ok.injEq] at hw
    subst hw
    have hd :
        drain
            { rc := { reads := cs.map (fun c => (c, none)), closeErr := closeErr },
              buffer := [], bufferReady := false, waiting := 0 } =
          (cs.flatten,
            { rc := { reads := [], closeErr := closeErr },
              buffer := cs.flatten, bufferReady := false, waiting := 0 }) := by
      rw [drain, drainGo_ok cs _ _ rfl]
      · simp
      · simp
    rw [hd]
    simp [ReadCloserWithBuffer.Close, ReadCloserWithBuffer.GetBufBlocking]
  · intro r r2 bs e hread he
    subst he
    cases r with
    | mk rc buffer ready waiting =>
      cases rc with
      | mk reads closeErr =>
        cases reads with
        | nil => simp [ReadCloserWithBuffer.Read] at hread
        | cons res rest =>
          cases res with
          | mk chunk cerr =>
            cases cerr with
            | none =>
              simp only [ReadCloserWithBuffer.Read, Prod.mk.injEq] at hread
              obtain ⟨⟨hbs, -⟩, hr2⟩ := hread
              subst hbs
              rw [← hr2]
            | some e2 =>
              simp [ReadCloserWithBuffer.Read] at hread

/-- Claim C2 witness: a stream yielding the chunks [1, 2] and [3], once
    drained and closed, hands [1, 2, 3] to GetBufBlocking without
    changing the state, and one concrete successful Read appends its
    bytes to the buffer. -/
theorem capture_drain_close_getBuf_witness :
    (((drain
        { rc := { reads := [([1, 2], none), ([3], none)], closeErr := none },
          buffer := [], bufferReady := false, waiting := 0 }).snd.Close).snd.GetBufBlocking).fst
      = some [1, 2, 3] ∧
    (ReadCloserWithBuffer.Read
        { rc := { reads := [([5], none)], closeErr := none },
          buffer := [9], bufferReady := false, waiting := 0 }).snd.buffer = [9] ++ [5] :=
  ⟨((capture_drain_close_getBuf.1 [[1, 2], [3]] none _ rfl).2.1),
   capture_drain_close_getBuf.2
      { rc := { reads := [([5], none)], closeErr := none },
        buffer := [9], bufferReady := false, waiting := 0 }
      { rc := { reads := [], closeErr := none },
        buffer := [9, 5], bufferReady := false, waiting := 0 }
      [5] none rfl rfl⟩

/-- Claim C8: after Close has sealed the wrapper, GetBufBlocking returns
    the buffer unchanged and leaves the state untouched, so repeated
    calls all return the identical byte sequence. -/
theorem getBufBlocking_idempotent_after_close (r : ReadCloserWithBuffer) :
    ((r.Close).snd.GetBufBlocking).fst = some r.buffer ∧
    ((r.Close).snd.GetBufBlocking).snd = (r.Close).snd ∧
    (((r.Close).snd.GetBufBlocking).snd.GetBufBlocking).fst = some r.buffer := by
  simp [ReadCloserWithBuffer.Close, ReadCloserWithBuffer.GetBufBlocking]

/-- Claim C9: the wrapper constructor fails exactly on a nil inner
    stream, and on any other input succeeds with the given stream, an
    empty buffer, the ready flag down and nobody waiting. -/
theorem newReadCloserWithBuffer_spec (closer : Option InnerStream) :
    (exceptFailed (NewReadCloserWithBuffer closer) = true ↔ closer = none) ∧
    (∀ (c : InnerStream) (w : ReadCloserWithBuffer),
        closer = some c →
        NewReadCloserWithBuffer closer = Except.ok w →
        w.rc = c ∧ w.buffer = [] ∧ w.bufferReady = false ∧ w.waiting = 0) := by
  constructor
  · cases closer <;> simp [NewReadCloserWithBuffer, exceptFailed]
  · intro c w hc hok
    subst hc
    simp only [NewReadCloserWithBuffer, Except.ok.injEq] at hok
    subst hok
    exact ⟨rfl, rfl, rfl, rfl⟩

/-- Claim C9 witness: the constructor fails on the nil stream and, on a
    concrete stream, yields the wrapper with an empty, not yet ready
    buffer. -/
theorem newReadCloserWithBuffer_spec_witness :
    exceptFailed (NewReadCloserWithBuffer none) = true ∧
    ({ rc := { reads := [([1], none)], closeErr := none }, buffer := [],
       bufferReady := false, waiting := 0 } : ReadCloserWithBuffer).buffer = [] ∧
    ({ rc := { reads := [([1], none)], closeErr := none }, buffer := [],
       bufferReady := false, waiting := 0 } : ReadCloserWithBuffer).bufferReady = false :=
  ⟨(newReadCloserWithBuffer_spec none).1.mpr rfl,
   ((newReadCloserWithBuffer_spec
        (some { reads := [([1], none)], closeErr := none })).2
      { reads := [([1], none)], closeErr := none } _ rfl rfl).2.1,
   ((newReadCloserWithBuffer_spec
        (some { reads := [([1], none)], closeErr := none })).2
      { reads := [([1], none)], closeErr := none } _ rfl rfl).2.2.1⟩

/-- Claim C6: a nil request makes the decorator RoundTrip return a nil
    response together with the nil request error, and no audit task is
    scheduled, so whatever the background dispatch would do, no rule is
    evaluated and no sender receives any event for that call. -/
theorem decorator_nil_request (proxy : Option HttpRequest → RoundTripOutcome)
    (dispatch : AuditArgs → List Emission) :
    DecoratorRoundTrip proxy none =
      { resp := none, err := some (Err.msg "RoundTrip with nil request"),
        audit := none } ∧
    (DecoratorRoundTrip proxy none).audit = none ∧
    auditEmissions dispatch (DecoratorRoundTrip proxy none) = [] := by
  exact ⟨rfl, rfl, rfl⟩

/-- Claim C1 counterexample: on a non nil request whose copies succeed,
    the decorator returns a nil error although the underlying capability
    returned a non nil error, so the returned pair is not the underlying
    outcome. -/
theorem decorator_alters_error_counterexample :
    (DecoratorRoundTrip proxyCex (some requestCex)).err = none ∧
    (proxyCex (some requestCex)).err = some (Err.msg "upstream failure") ∧
    (DecoratorRoundTrip proxyCex (some requestCex)).err ≠
      (proxyCex (some requestCex)).err := by
  refine ⟨rfl, rfl, ?_⟩
  intro h
  simp [DecoratorRoundTrip, proxyCex, requestCex, NewRequestBytesCopy,
    NewResponseBytesCopy, teeReader] at h

/-- Claim C1 amended: for every non nil request, if copying the request
    body fails the decorator returns a nil response together with the
    copy error and schedules no audit task; otherwise the underlying
    capability is invoked on the request with its body replaced, and if
    copying the response body fails (a nil response or a nil response
    body included) the decorator again returns a nil response with the
    copy error and schedules no audit task; when both copies succeed the
    decorator returns the copied response with a nil error and schedules
    the audit task carrying the underlying error, which is never
    returned to the caller; the returned response keeps the status code
    and the exact body bytes of the underlying response. -/
theorem decorator_roundTrip_amended :
    (∀ (proxy : Option HttpRequest → RoundTripOutcome) (request : HttpRequest)
        (e : Err),
        NewRequestBytesCopy (some request) = Except.error e →
        DecoratorRoundTrip proxy (some request) =
          { resp := none, err := some e, audit := none }) ∧
    (∀ (proxy : Option HttpRequest → RoundTripOutcome) (request : HttpRequest)
        (reqCopy : HttpRequest × List Nat) (e : Err),
        NewRequestBytesCopy (some request) = Except.ok reqCopy →
        NewResponseBytesCopy (proxy (some reqCopy.fst)).resp = Except.error e →
        DecoratorRoundTrip proxy (some request) =
          { resp := none, err := some e, audit := none }) ∧
    (∀ (proxy : Option HttpRequest → RoundTripOutcome) (request : HttpRequest)
        (reqCopy : HttpRequest × List Nat) (respCopy : HttpResponse × List Nat),
        NewRequestBytesCopy (some request) = Except.ok reqCopy →
        NewResponseBytesCopy (proxy (some reqCopy.fst)).resp = Except.ok respCopy →
        (DecoratorRoundTrip proxy (some request) =
          { resp := some respCopy.fst
            err := none
            audit := some
              { reqCopy := reqCopy
                respCopy := respCopy
                roundTripError := (proxy (some reqCopy.fst)).err } }) ∧
        (∀ (resp0 : HttpResponse) (b : BodyStream),
            (proxy (some reqCopy.fst)).resp = some resp0 →
            resp0.body = some b →
            respCopy.fst.statusCode = resp0.statusCode ∧
            respCopy.fst.body = some { data := b.data, readErr := none, closeErr := none } ∧
            respCopy.snd = b.data)) := by
  refine ⟨?_, ?_, ?_⟩
  · intro proxy request e h1
    rw [DecoratorRoundTrip]
    rw [h1]
  · intro proxy request reqCopy e h1 h2
    rw [DecoratorRoundTrip]
    rw [h1]
    simp only []
    rw [h2]
  · intro proxy request reqCopy respCopy h1 h2
    constructor
    · rw [DecoratorRoundTrip]
      rw [h1]
      simp only []
      rw [h2]
    · intro resp0 b hresp hbody
      rw [hresp] at h2
      simp only [NewResponseBytesCopy] at h2
      rw [hbody] at h2
      simp only [teeReader] at h2
      cases hre : b.readErr with
      | some e => rw [hre] at h2; simp at h2
      | none =>
        rw [hre] at h2
        cases hce : b.closeErr with
        | some e => rw [hce] at h2; simp at h2
        | none =>
          rw [hce] at h2
          simp only [Except.ok.injEq] at h2
          subst h2
          exact ⟨rfl, rfl, rfl⟩

/-- Claim C1 amended witness: a request whose body read fails makes the
    decorator return the copy error with no audit task; an underlying
    capability returning no response makes it return the nil response
    copy error with no audit task; and a concrete successful round trip
    returns the copied response with a nil error, hands the upstream
    error to the audit task only, and preserves the body bytes of the
    underlying response. -/
theorem decorator_roundTrip_amended_witness :
    DecoratorRoundTrip proxyCex (some requestReadErrCex) =
      { resp := none, err := some (Err.msg "read failure"), audit := none } ∧
    DecoratorRoundTrip proxyNoRespCex (some requestCex) =
      { resp := none, err := some (Err.msg "nil response given"), audit := none } ∧
    DecoratorRoundTrip proxyCex (some requestCex) =
      { resp := some
          { statusCode := 502
            body := some { data := [1], readErr := none, closeErr := none } }
        err := none
        audit := some
          { reqCopy :=
              ({ body := some { data := [], readErr := none, closeErr := none } }, [])
            respCopy :=
              ({ statusCode := 502
                 body := some { data := [1], readErr := none, closeErr := none } }, [1])
            roundTripError := some (Err.msg "upstream failure") } } ∧
    ({ statusCode := 502
       body := some { data := [1], readErr := none, closeErr := none } } :
         HttpResponse).body =
      some { data := [1], readErr := none, closeErr := none } :=
  ⟨decorator_roundTrip_amended.1 proxyCex requestReadErrCex
      (Err.msg "read failure") rfl,
   decorator_roundTrip_amended.2.1 proxyNoRespCex requestCex
      ({ body := some { data := [], readErr := none, closeErr := none } }, [])
      (Err.msg "nil response given") rfl rfl,
   (decorator_roundTrip_amended.2.2 proxyCex requestCex
      ({ body := some { data := [], readErr := none, closeErr := none } }, [])
      ({ statusCode := 502
         body := some { data := [1], readErr := none, closeErr := none } }, [1])
      rfl rfl).1,
   ((decorator_roundTrip_amended.2.2 proxyCex requestCex
      ({ body := some { data := [], readErr := none, closeErr := none } }, [])
      ({ statusCode := 502
         body := some { data := [1], readErr := none, closeErr := none } }, [1])
      rfl rfl).2
      { statusCode := 502
        body := some { data := [1], readErr := none, closeErr := none } }
      { data := [1], readErr := none, closeErr := none } rfl rfl).2.1⟩

theorem deserializeJSONConfig_fails (compile : String → Option (String → Bool)) :
    ∀ (raws : List RawEventBuilder),
      (∃ raw ∈ raws, compile raw.urlPattern = none) →
      exceptFailed (deserializeJSONConfig compile raws) = true := by
  intro raws
  induction raws with
  | nil =>
    intro h
    obtain ⟨raw, hmem, -⟩ := h
    cases hmem
  | cons raw rest ih =>
    intro h
    rw [deserializeJSONConfig]
    cases hc : compile raw.urlPattern with
    | none => simp [unmarshalEventBuilder, hc, exceptFailed]
    | some matcher =>
      obtain ⟨bad, hmem, hbad⟩ := h
      rcases List.mem_cons.mp hmem with hb | hb
      · subst hb
        rw [hc] at hbad
        cases hbad
      · have hrest := ih ⟨bad, hb, hbad⟩
        simp only [unmarshalEventBuilder, hc]
        cases hr : deserializeJSONConfig compile rest with
        | error e => simp [exceptFailed]
        | ok bs => rw [hr] at hrest; simp [exceptFailed] at hrest

theorem deserializeJSONConfig_ok (compile : String → Option (String → Bool)) :
    ∀ (raws : List RawEventBuilder) (bs : List EventBuilder),
      deserializeJSONConfig compile raws = Except.ok bs →
      bs.length = raws.length ∧
      ∀ (i : Nat) (hi : i < bs.length) (hj : i < raws.length),
        (bs.get ⟨i, hi⟩).URLPattern = (raws.get ⟨i, hj⟩).urlPattern ∧
        compile ((raws.get ⟨i, hj⟩).urlPattern) = some ((bs.get ⟨i, hi⟩).r) := by
  intro raws
  induction raws with
  | nil =>
    intro bs hok
    simp only [deserializeJSONConfig, Except.ok.injEq] at hok
    subst hok
    exact ⟨rfl, fun i hi hj => absurd hi (by simp)⟩
  | cons raw rest ih =>
    intro bs hok
    rw [deserializeJSONConfig] at hok
    cases hc : compile raw.urlPattern with
    | none => simp [unmarshalEventBuilder, hc] at hok
    | some matcher =>
      simp only [unmarshalEventBuilder, hc] at hok
      cases hr : deserializeJSONConfig compile rest with
      | error e => rw [hr] at hok; cases hok
      | ok bs2 =>
        rw [hr] at hok
        simp only [Except.ok.injEq] at hok
        subst hok
        obtain ⟨hlen, hpt⟩ := ih bs2 hr
        refine ⟨by simp [hlen], ?_⟩
        intro i hi hj
        match i with
        | 0 => exact ⟨rfl, by simp [hc]⟩
        | Nat.succ n =>
          exact hpt n (Nat.lt_of_succ_lt_succ hi) (Nat.lt_of_succ_lt_succ hj)

/-- Claim C7: loading a rule configuration fails whenever schema
    validation rejects it or any url pattern does not compile, producing
    no rule list; and every rule of a successfully deserialized list
    carries its url pattern together with exactly the matcher that
    pattern compiles to, so no pattern error is left for request time. -/
theorem deserialize_fail_fast (compile : String → Option (String → Bool))
    (schemaVerdict : Option (List String)) (raws : List RawEventBuilder) :
    ((∃ raw ∈ raws, compile raw.urlPattern = none) →
      exceptFailed (DeserializeEventBuildersFromBytes compile schemaVerdict raws) = true) ∧
    (∀ (bs : List EventBuilder),
      DeserializeEventBuildersFromBytes compile schemaVerdict raws = Except.ok bs →
      bs.length = raws.length ∧
      ∀ (i : Nat) (hi : i < bs.length) (hj : i < raws.length),
        (bs.get ⟨i, hi⟩).URLPattern = (raws.get ⟨i, hj⟩).urlPattern ∧
        compile ((raws.get ⟨i, hj⟩).urlPattern) = some ((bs.get ⟨i, hi⟩).r)) := by
  cases schemaVerdict with
  | some descriptions =>
    constructor
    · intro h
      rfl
    · intro bs hok
      cases hok
  | none =>
    constructor
    · intro h
      exact deserializeJSONConfig_fails compile raws h
    · intro bs hok
      exact deserializeJSONConfig_ok compile raws bs hok

/-- Claim C7 witness: a document with an uncompilable pattern fails to
    load, and the one rule of a successfully loaded document keeps its
    url pattern and carries the compilation of that pattern. -/
theorem deserialize_fail_fast_witness :
    exceptFailed
        (DeserializeEventBuildersFromBytes compileCex none [rawOkCex, rawBadCex]) = true ∧
    ([{ URLPattern := "^/api$"
        Method := "GET"
        ResponseCodes := [200]
        Filter :=
          { RequestHeaderWhiteList := []
            RequestBodyWhiteList := []
            ResponseHeaderWhiteList := []
            ResponseBodyWhiteList := []
            TakeWholeResponseBody := false }
        Class := "c"
        DescriptionTemplate := ""
        r := fun _ => true }] : List EventBuilder).length = 1 ∧
    compileCex rawOkCex.urlPattern =
      some (([{ URLPattern := "^/api$"
                Method := "GET"
                ResponseCodes := [200]
                Filter :=
                  { RequestHeaderWhiteList := []
                    RequestBodyWhiteList := []
                    ResponseHeaderWhiteList := []
                    ResponseBodyWhiteList := []
                    TakeWholeResponseBody := false }
                Class := "c"
                DescriptionTemplate := ""
                r := fun _ => true }] : List EventBuilder).get
          ⟨0, by decide⟩).r :=
  ⟨(deserialize_fail_fast compileCex none [rawOkCex, rawBadCex]).1
      ⟨rawBadCex, by simp, rfl⟩,
   ((deserialize_fail_fast compileCex none [rawOkCex]).2 _ rfl).1,
   (((deserialize_fail_fast compileCex none [rawOkCex]).2 _ rfl).2 0
      (by decide) (by decide)).2⟩

/-- Claim C10: the kafka sender Send method does nothing, so enabling
    the message broker sink registers, after the always present stdout
    sender, a sender that never delivers any event; every sender other
    than the stdout one emits nothing. -/
theorem kafkaSender_noop :
    (∀ e : Event, KafkaSenderSend e = []) ∧
    (∀ (proxy : Option HttpRequest → RoundTripOutcome) (bs : List EventBuilder),
        (NewProxyAuditLogDecoratorFromEventBuilders proxy true bs).senders =
          [SenderKind.stdout, SenderKind.kafka]) ∧
    (∀ (s : SenderKind) (e : Event), SenderKind.Send s e = [] ∨ s = SenderKind.stdout) := by
  refine ⟨fun e => rfl, fun proxy bs => rfl, ?_⟩
  intro s e
  cases s with
  | stdout => exact Or.inr rfl
  | kafka => exact Or.inl rfl

end Auditlog
